import Mathlib

/-!
Verification of the epoch-processing control loop of
`src/third_party/RoRD/trainPT_ipr.py`.

The core of the script is `process_epoch` (lines 121-170) together with
the outer training loop (lines 196-222).  This file gives a shallow
embedding of both:

* numeric loss scalars are modelled as rationals (`ℚ`);
* the call `loss_function(model, batch, device, ...)` (line 143), an
  external collaborator, is a parameter
  `lossFn : P → AnnotatedBatch β → LossOutcome`: it sees the current
  model parameters and the batch dictionary as annotated by lines
  135-140, and either raises `NoGradientError` (`LossOutcome.noGrad`)
  or returns a loss tensor whose entries along the first dimension are
  recorded as a `List ℚ`; the extraction `loss.data.cpu().numpy()[0]`
  of line 148 is `extractLoss`, and an out-of-bounds index — the numpy
  `IndexError` on a zero-dimensional or empty array — makes the whole
  epoch return `none`, the uncaught-exception outcome;
* the effect of `optimizer.step()` on the model parameters (line 161)
  is a parameter `stepFn : P → P` over an abstract parameter type `P`;
  the calls `optimizer.zero_grad()` (line 133), `loss_function`
  (line 143), `loss.backward()` (line 160) and `optimizer.step()`
  (line 161) are recorded in an event trace;
* writes to the log file (lines 153-157 and 163-167) are returned as a
  list of `LogLine` values; `renderLogLine` reproduces the literal
  format strings of lines 154 and 163; `np.mean` of an empty array,
  which is NaN in numpy, is modelled as `none : Option ℚ`;
* the `tqdm` progress-bar display (lines 130 and 151) is a purely
  visual side effect and is not modelled.
-/

namespace RoRD

/-- The fields of the parsed `args` object that `process_epoch` and the
training loop read: `args.batch_size`, `args.preprocessing`,
`args.log_interval`, `args.plot` (lines 135-153). -/
structure TrainArgs where
  batch_size : Nat
  preprocessing : String
  log_interval : Nat
  plot : Bool
deriving DecidableEq

/-- The batch dictionary after the in-place annotation of lines
135-140: the payload produced by the data loader plus the run-context
scalars `train`, `epoch_idx`, `batch_idx`, `batch_size`,
`preprocessing`, `log_interval`. -/
structure AnnotatedBatch (β : Type) where
  payload : β
  train : Bool
  epoch_idx : Nat
  batch_idx : Nat
  batch_size : Nat
  preprocessing : String
  log_interval : Nat
deriving DecidableEq

/-- Lines 135-140: enrich the batch with run-context fields. -/
def annotateBatch {β : Type} (b : β) (train : Bool) (epoch_idx batch_idx : Nat)
    (args : TrainArgs) : AnnotatedBatch β :=
  ⟨b, train, epoch_idx, batch_idx, args.batch_size, args.preprocessing, args.log_interval⟩

/-- Outcome of the `loss_function` call of line 143: either it raises
`NoGradientError` (caught at line 144), or it returns a loss tensor; we
record the scalar entries of the tensor along its first dimension. -/
inductive LossOutcome where
  | noGrad : LossOutcome
  | ok : List ℚ → LossOutcome
deriving DecidableEq

/-- Line 148, `loss.data.cpu().numpy()[0]`: numpy indexing `[0]`
returns the first entry when the array has at least one element along
its first dimension, and raises `IndexError` (modelled as `none`) on a
zero-dimensional or empty array, which has no first entry. -/
def extractLoss (t : List ℚ) : Option ℚ := t.head?

/-- Calls that the per-batch loop makes into the optimizer / autograd
machinery, in program order:
`zeroGrad` = `optimizer.zero_grad()` (line 133),
`lossCall i` = the `loss_function` invocation for batch `i` (line 143),
`backward` = `loss.backward()` (line 160),
`step` = `optimizer.step()` (line 161). -/
inductive Event where
  | zeroGrad : Event
  | lossCall : Nat → Event
  | backward : Event
  | step : Event
deriving DecidableEq

/-- A line written to `log_file`: either the periodic line of lines
154-157 or the epoch-summary line of lines 163-167.  The `Option ℚ`
field is the `np.mean` value, `none` standing for NaN (the numpy mean
of an empty array). -/
inductive LogLine where
  | interval : String → Nat → Nat → Nat → Option ℚ → LogLine
  | summary : String → Nat → Option ℚ → LogLine
deriving DecidableEq

/-- The mode label of lines 155 and 164: `train` when training,
`valid` otherwise. -/
def modeLabel (train : Bool) : String := if train then "train" else "valid"

/-- `np.mean(epoch_losses)` (lines 151, 156, 166, 170): the arithmetic
mean, except that the numpy mean of an empty array is NaN (`none`). -/
def npMean (l : List ℚ) : Option ℚ :=
  if l.isEmpty then none else some (l.sum / (l.length : ℚ))

/-- Left-pad a digit string to 6 digits, for the fractional part of
C-style `%f` formatting. -/
def natPad6 (n : Nat) : String :=
  let s := toString n
  String.mk (List.replicate (6 - s.length) '0') ++ s

/-- C-style `%f` rendering of a (rational) numeric value: six digits
after the decimal point. -/
def fmtFixed6 (q : ℚ) : String :=
  let n : Int := round (q * 1000000)
  (if n < 0 then "-" else "") ++ toString (n.natAbs / 1000000) ++ "." ++ natPad6 (n.natAbs % 1000000)

/-- `%f` rendering of an `np.mean` value; `%f` applied to a NaN float
prints `nan`. -/
def renderNpFloat : Option ℚ → String
  | none => "nan"
  | some q => fmtFixed6 q

/-- The literal format strings of lines 154 and 163:
`[%s] epoch %d - batch %d / %d - avg_loss: %f` followed by a newline,
and `[%s] epoch %d - avg_loss: %f` followed by a newline. -/
def renderLogLine : LogLine → String
  | LogLine.interval m e b t a =>
      "[" ++ m ++ "] epoch " ++ toString e ++ " - batch " ++ toString b ++ " / "
        ++ toString t ++ " - avg_loss: " ++ renderNpFloat a ++ "\n"
  | LogLine.summary m e a =>
      "[" ++ m ++ "] epoch " ++ toString e ++ " - avg_loss: " ++ renderNpFloat a ++ "\n"

/-- The process-global autograd state plus the model parameters:
`torch.set_grad_enabled` (line 128) toggles `gradEnabled`;
`optimizer.step()` (line 161) updates `params`. -/
structure TorchState (P : Type) where
  gradEnabled : Bool
  params : P
deriving DecidableEq

/-- Observable outcome of the batch loop of lines 131-161: final torch
state, the `epoch_losses` accumulator, the indices of the batches whose
loss computation succeeded, the optimizer/autograd call trace, and the
log lines written. -/
structure LoopOut (P : Type) where
  state : TorchState P
  epoch_losses : List ℚ
  okIdx : List Nat
  events : List Event
  logLines : List LogLine
deriving DecidableEq

/-- Observable outcome of one `process_epoch` call: as `LoopOut`, plus
the returned `np.mean(epoch_losses)` (line 170). -/
structure EpochOut (P : Type) where
  state : TorchState P
  epoch_losses : List ℚ
  okIdx : List Nat
  events : List Event
  logLines : List LogLine
  mean : Option ℚ
deriving DecidableEq

/-- The `for batch_idx, batch in progress_bar` loop of lines 131-161,
over the enumerated batch list.  Per batch, in program order:
`optimizer.zero_grad()` when training (lines 132-133); annotation
(lines 135-140); the `loss_function` call (line 143) — on
`NoGradientError` the `continue` of line 146 skips the rest of the
body; scalar extraction (line 148, `none` = uncaught `IndexError`
aborting the epoch); append to `epoch_losses` (line 149); the periodic
log line when `batch_idx % args.log_interval == 0` (lines 153-157);
`loss.backward(); optimizer.step()` when training (lines 159-161). -/
def runBatches {β P : Type} (lossFn : P → AnnotatedBatch β → LossOutcome) (stepFn : P → P)
    (args : TrainArgs) (epoch_idx total : Nat) (train : Bool) :
    List (Nat × β) → TorchState P → List ℚ → Option (LoopOut P)
  | [], s, losses => some ⟨s, losses, [], [], []⟩
  | (bidx, b) :: rest, s, losses =>
    match lossFn s.params (annotateBatch b train epoch_idx bidx args) with
    | LossOutcome.noGrad =>
        (runBatches lossFn stepFn args epoch_idx total train rest s losses).map
          (fun r => ⟨r.state, r.epoch_losses, r.okIdx,
                     (if train then [Event.zeroGrad] else []) ++ Event.lossCall bidx :: r.events,
                     r.logLines⟩)
    | LossOutcome.ok t =>
        match extractLoss t with
        | none => none
        | some current_loss =>
          let losses' := losses ++ [current_loss]
          (runBatches lossFn stepFn args epoch_idx total train rest
              (if train then ⟨s.gradEnabled, stepFn s.params⟩ else s) losses').map
            (fun r => ⟨r.state, r.epoch_losses, bidx :: r.okIdx,
                       (if train then [Event.zeroGrad] else []) ++ Event.lossCall bidx ::
                         (if train then [Event.backward, Event.step] else []) ++ r.events,
                       (if bidx % args.log_interval == 0 then
                          [LogLine.interval (modeLabel train) epoch_idx bidx total (npMean losses')]
                        else []) ++ r.logLines⟩)

/-- `process_epoch` (lines 121-170): initialise `epoch_losses = []`
(line 126), set the global autograd toggle to `train` (line 128), run
the batch loop over `enumerate(dataloader)` (line 131), then write the
epoch-summary line (lines 163-167) and return `np.mean(epoch_losses)`
(line 170).  `none` is the uncaught-exception outcome of line 148. -/
def process_epoch {β P : Type} (epoch_idx : Nat) (lossFn : P → AnnotatedBatch β → LossOutcome)
    (stepFn : P → P) (dataloader : List β) (args : TrainArgs) (train : Bool)
    (s : TorchState P) : Option (EpochOut P) :=
  (runBatches lossFn stepFn args epoch_idx dataloader.length train
      dataloader.enum ⟨train, s.params⟩ []).map
    (fun r => ⟨r.state, r.epoch_losses, r.okIdx, r.events,
               r.logLines ++ [LogLine.summary (modeLabel train) epoch_idx (npMean r.epoch_losses)],
               npMean r.epoch_losses⟩)

/-- The checkpoint dictionary of lines 215-221: the parsed arguments,
the epoch index, `model.state_dict()` (the parameters), and the loss
history.  (The internal optimizer state, also saved there, has no
content in this embedding, where the effect of the optimizer is the
pure `stepFn`.) -/
structure Checkpoint (P : Type) where
  args : TrainArgs
  epoch_idx : Nat
  params : P
  train_loss_history : List (Option ℚ)

/-- Outcome of the training loop of lines 200-222: it either finishes
all epochs, or terminates with the propagated `torch.save` error
(line 222), or aborts with the uncaught per-batch `IndexError`.  In
each case we record the loss history collected so far and the list of
epoch indices whose checkpoint write succeeded. -/
inductive RunResult (P : Type) where
  | finished : TorchState P → List (Option ℚ) → List Nat → RunResult P
  | saveFailed : String → List (Option ℚ) → List Nat → RunResult P
  | crashed : List (Option ℚ) → List Nat → RunResult P

/-- The body of the `for epoch_idx in range(1, args.num_epochs + 1)`
loop (lines 200-222), over the remaining list of epoch indices:
`train_loss_history.append(process_epoch(..., train=True))`
(lines 202-208), then `torch.save(checkpoint, ...)` (lines 211-222),
whose failure (`saveFn` returning an error) propagates and terminates
the run.  Note that the mean of epoch `e` is appended to the history
before the checkpoint of epoch `e` is written. -/
def train_loop_aux {β P : Type} (lossFn : P → AnnotatedBatch β → LossOutcome) (stepFn : P → P)
    (dataloader : List β) (args : TrainArgs) (saveFn : Checkpoint P → Except String Unit) :
    List Nat → List (Option ℚ) → List Nat → TorchState P → RunResult P
  | [], history, saved, s => RunResult.finished s history saved
  | e :: rest, history, saved, s =>
    match process_epoch e lossFn stepFn dataloader args true s with
    | none => RunResult.crashed history saved
    | some r =>
      match saveFn ⟨args, e, r.state.params, history ++ [r.mean]⟩ with
      | Except.error msg => RunResult.saveFailed msg (history ++ [r.mean]) saved
      | Except.ok _ =>
          train_loop_aux lossFn stepFn dataloader args saveFn rest
            (history ++ [r.mean]) (saved ++ [e]) r.state

/-- Lines 196-222: `train_loss_history = []`, then the training loop
over epoch indices `1 .. num_epochs`, each processed in Train mode. -/
def train_loop {β P : Type} (num_epochs : Nat) (lossFn : P → AnnotatedBatch β → LossOutcome)
    (stepFn : P → P) (dataloader : List β) (args : TrainArgs)
    (saveFn : Checkpoint P → Except String Unit) (s : TorchState P) : RunResult P :=
  train_loop_aux lossFn stepFn dataloader args saveFn (List.range' 1 num_epochs) [] [] s

/-- The batch index a log line reports, when it is a periodic
(interval) line. -/
def intervalIdx : LogLine → Option Nat
  | LogLine.interval _ _ b _ _ => some b
  | LogLine.summary _ _ _ => none

/-- Whether a log line is an epoch-summary line. -/
def isSummaryLine : LogLine → Bool
  | LogLine.interval _ _ _ _ _ => false
  | LogLine.summary _ _ _ => true

/-- Per-batch loss values of the concrete scenario of spec section 8:
the successful batches 0, 1, 3, 4, 5, 6, 8, 9 yield 1, 2, 3, 4, 5, 6,
7, 8 in order. -/
def c8Val (i : Nat) : Nat := if i < 2 then i + 1 else if i < 7 then i else i - 1

/-- Loss function of the concrete scenario of spec section 8: batches
2 and 7 raise `NoGradientError`, the rest succeed with the losses
given by `c8Val`. -/
def c8LossFn (_ : Unit) (ab : AnnotatedBatch Unit) : LossOutcome :=
  if ab.batch_idx = 2 ∨ ab.batch_idx = 7 then LossOutcome.noGrad
  else LossOutcome.ok [(c8Val ab.batch_idx : ℚ)]

/-- Unfolding lemma: one loop iteration on a batch whose loss
computation raises `NoGradientError`.  The `continue` of line 146
passes state, accumulator and log through unchanged; only the
`zero_grad` (train mode) and `loss_function` calls are traced. -/
theorem runBatches_noGrad_step {β P : Type} (lossFn : P → AnnotatedBatch β → LossOutcome)
    (stepFn : P → P) (args : TrainArgs) (epoch_idx total bidx : Nat) (train : Bool) (b : β)
    (rest : List (Nat × β)) (s : TorchState P) (losses : List ℚ)
    (h : lossFn s.params (annotateBatch b train epoch_idx bidx args) = LossOutcome.noGrad) :
    runBatches lossFn stepFn args epoch_idx total train ((bidx, b) :: rest) s losses
      = (runBatches lossFn stepFn args epoch_idx total train rest s losses).map
          (fun r => ⟨r.state, r.epoch_losses, r.okIdx,
                     (if train then [Event.zeroGrad] else []) ++ Event.lossCall bidx :: r.events,
                     r.logLines⟩) := by
  simp [runBatches, h]

/-- Unfolding lemma: one loop iteration on a batch whose loss
computation succeeds and whose scalar extraction yields `q`. -/
theorem runBatches_ok_step {β P : Type} (lossFn : P → AnnotatedBatch β → LossOutcome)
    (stepFn : P → P) (args : TrainArgs) (epoch_idx total bidx : Nat) (train : Bool) (b : β)
    (t : List ℚ) (q : ℚ) (rest : List (Nat × β)) (s : TorchState P) (losses : List ℚ)
    (h : lossFn s.params (annotateBatch b train epoch_idx bidx args) = LossOutcome.ok t)
    (hq : extractLoss t = some q) :
    runBatches lossFn stepFn args epoch_idx total train ((bidx, b) :: rest) s losses
      = (runBatches lossFn stepFn args epoch_idx total train rest
            (if train then ⟨s.gradEnabled, stepFn s.params⟩ else s) (losses ++ [q])).map
          (fun r => ⟨r.state, r.epoch_losses, bidx :: r.okIdx,
                     (if train then [Event.zeroGrad] else []) ++ Event.lossCall bidx ::
                       (if train then [Event.backward, Event.step] else []) ++ r.events,
                     (if bidx % args.log_interval == 0 then
                        [LogLine.interval (modeLabel train) epoch_idx bidx total (npMean (losses ++ [q]))]
                      else []) ++ r.logLines⟩) := by
  simp [runBatches, h, hq]

/-- When the loss function never returns an empty tensor, the batch
loop never hits the `IndexError` of line 148 and always completes. -/
theorem runBatches_total {β P : Type} (lossFn : P → AnnotatedBatch β → LossOutcome)
    (stepFn : P → P) (args : TrainArgs) (epoch_idx total : Nat) (train : Bool)
    (hok : ∀ p ab t, lossFn p ab = LossOutcome.ok t → t ≠ []) :
    ∀ (l : List (Nat × β)) (s : TorchState P) (losses : List ℚ),
      ∃ r, runBatches lossFn stepFn args epoch_idx total train l s losses = some r := by
  intro l
  induction l with
  | nil => intro s losses; exact ⟨_, rfl⟩
  | cons hd tl ih =>
    intro s losses
    obtain ⟨bidx, b⟩ := hd
    cases h : lossFn s.params (annotateBatch b train epoch_idx bidx args) with
    | noGrad =>
      obtain ⟨r, hr⟩ := ih s losses
      rw [runBatches_noGrad_step lossFn stepFn args epoch_idx total bidx train b tl s losses h, hr]
      exact ⟨_, rfl⟩
    | ok t =>
      cases t with
      | nil => exact absurd h (by intro hc; exact hok _ _ _ hc rfl)
      | cons q t' =>
        obtain ⟨r, hr⟩ := ih (if train then ⟨s.gradEnabled, stepFn s.params⟩ else s) (losses ++ [q])
        rw [runBatches_ok_step lossFn stepFn args epoch_idx total bidx train b (q :: t') q tl s losses h rfl, hr]
        exact ⟨_, rfl⟩

/-- When the loss function never raises `NoGradientError` and never
returns an empty tensor, every batch contributes exactly one entry to
the accumulator. -/
theorem runBatches_no_skip {β P : Type} (lossFn : P → AnnotatedBatch β → LossOutcome)
    (stepFn : P → P) (args : TrainArgs) (epoch_idx total : Nat) (train : Bool)
    (hok : ∀ p ab, ∃ t, lossFn p ab = LossOutcome.ok t ∧ t ≠ []) :
    ∀ (l : List (Nat × β)) (s : TorchState P) (losses : List ℚ),
      ∃ r, runBatches lossFn stepFn args epoch_idx total train l s losses = some r ∧
        r.epoch_losses.length = losses.length + l.length := by
  intro l
  induction l with
  | nil => intro s losses; exact ⟨_, rfl, by simp⟩
  | cons hd tl ih =>
    intro s losses
    obtain ⟨bidx, b⟩ := hd
    obtain ⟨t, h, hne⟩ := hok s.params (annotateBatch b train epoch_idx bidx args)
    cases t with
    | nil => exact absurd rfl hne
    | cons q t' =>
      obtain ⟨r, hr, hlen⟩ := ih (if train then ⟨s.gradEnabled, stepFn s.params⟩ else s) (losses ++ [q])
      rw [runBatches_ok_step lossFn stepFn args epoch_idx total bidx train b (q :: t') q tl s losses h rfl, hr]
      refine ⟨_, rfl, ?_⟩
      simp at hlen ⊢
      omega

/-- In evaluation mode the batch loop never touches the torch state and
the only traced calls are `loss_function` invocations. -/
theorem runBatches_eval {β P : Type} (lossFn : P → AnnotatedBatch β → LossOutcome)
    (stepFn : P → P) (args : TrainArgs) (epoch_idx total : Nat) :
    ∀ (l : List (Nat × β)) (s : TorchState P) (losses : List ℚ) (r : LoopOut P),
      runBatches lossFn stepFn args epoch_idx total false l s losses = some r →
      r.state = s ∧ ∀ ev ∈ r.events, ∃ i, ev = Event.lossCall i := by
  intro l
  induction l with
  | nil =>
    intro s losses r hr
    simp [runBatches] at hr
    subst hr
    simp
  | cons hd tl ih =>
    intro s losses r hr
    obtain ⟨bidx, b⟩ := hd
    cases h : lossFn s.params (annotateBatch b false epoch_idx bidx args) with
    | noGrad =>
      rw [runBatches_noGrad_step lossFn stepFn args epoch_idx total bidx false b tl s losses h] at hr
      simp at hr
      obtain ⟨r', hr', heq⟩ := hr
      obtain ⟨hst, hev⟩ := ih s losses r' hr'
      subst heq
      refine ⟨hst, ?_⟩
      intro ev hev'
      simp at hev'
      rcases hev' with h1 | h1
      · exact ⟨bidx, h1⟩
      · exact hev ev h1
    | ok t =>
      cases hq : extractLoss t with
      | none =>
        rw [runBatches] at hr
        simp [h, hq] at hr
      | some q =>
        rw [runBatches_ok_step lossFn stepFn args epoch_idx total bidx false b t q tl s losses h hq] at hr
        simp at hr
        obtain ⟨r', hr', heq⟩ := hr
        obtain ⟨hst, hev⟩ := ih s (losses ++ [q]) r' hr'
        subst heq
        refine ⟨hst, ?_⟩
        intro ev hev'
        simp at hev'
        rcases hev' with h1 | h1
        · exact ⟨bidx, h1⟩
        · exact hev ev h1

/-- The batch loop never changes the global autograd toggle. -/
theorem runBatches_gradEnabled {β P : Type} (lossFn : P → AnnotatedBatch β → LossOutcome)
    (stepFn : P → P) (args : TrainArgs) (epoch_idx total : Nat) (train : Bool) :
    ∀ (l : List (Nat × β)) (s : TorchState P) (losses : List ℚ) (r : LoopOut P),
      runBatches lossFn stepFn args epoch_idx total train l s losses = some r →
      r.state.gradEnabled = s.gradEnabled := by
  intro l
  induction l with
  | nil =>
    intro s losses r hr
    simp [runBatches] at hr
    subst hr
    rfl
  | cons hd tl ih =>
    intro s losses r hr
    obtain ⟨bidx, b⟩ := hd
    cases h : lossFn s.params (annotateBatch b train epoch_idx bidx args) with
    | noGrad =>
      rw [runBatches_noGrad_step lossFn stepFn args epoch_idx total bidx train b tl s losses h] at hr
      simp at hr
      obtain ⟨r', hr', heq⟩ := hr
      subst heq
      exact ih s losses r' hr'
    | ok t =>
      cases hq : extractLoss t with
      | none =>
        rw [runBatches] at hr
        simp [h, hq] at hr
      | some q =>
        rw [runBatches_ok_step lossFn stepFn args epoch_idx total bidx train b t q tl s losses h hq] at hr
        simp at hr
        obtain ⟨r', hr', heq⟩ := hr
        have hg := ih _ _ r' hr'
        subst heq
        cases train <;> simpa using hg

/-- The periodic log lines produced by the batch loop are exactly one
line for each successful batch whose index is a multiple of the log
interval, and the loop itself writes no summary line. -/
theorem runBatches_log {β P : Type} (lossFn : P → AnnotatedBatch β → LossOutcome)
    (stepFn : P → P) (args : TrainArgs) (epoch_idx total : Nat) (train : Bool) :
    ∀ (l : List (Nat × β)) (s : TorchState P) (losses : List ℚ) (r : LoopOut P),
      runBatches lossFn stepFn args epoch_idx total train l s losses = some r →
      r.logLines.filterMap intervalIdx = r.okIdx.filter (fun i => i % args.log_interval == 0) ∧
        ∀ line ∈ r.logLines, isSummaryLine line = false := by
  intro l
  induction l with
  | nil =>
    intro s losses r hr
    simp [runBatches] at hr
    subst hr
    simp
  | cons hd tl ih =>
    intro s losses r hr
    obtain ⟨bidx, b⟩ := hd
    cases h : lossFn s.params (annotateBatch b train epoch_idx bidx args) with
    | noGrad =>
      rw [runBatches_noGrad_step lossFn stepFn args epoch_idx total bidx train b tl s losses h] at hr
      simp at hr
      obtain ⟨r', hr', heq⟩ := hr
      subst heq
      exact ih s losses r' hr'
    | ok t =>
      cases hq : extractLoss t with
      | none =>
        rw [runBatches] at hr
        simp [h, hq] at hr
      | some q =>
        rw [runBatches_ok_step lossFn stepFn args epoch_idx total bidx train b t q tl s losses h hq] at hr
        simp at hr
        obtain ⟨r', hr', heq⟩ := hr
        obtain ⟨hmap, hsum⟩ := ih _ _ r' hr'
        subst heq
        constructor
        · by_cases hc : bidx % args.log_interval = 0
          · simp [hc, intervalIdx, List.filter_cons, hmap]
          · simp [hc, intervalIdx, List.filter_cons, hmap]
        · intro line hline
          by_cases hc : bidx % args.log_interval = 0
          · simp [hc] at hline
            rcases hline with h1 | h1
            · rw [h1]; rfl
            · exact hsum line h1
          · simp [hc] at hline
            exact hsum line hline

/-- When the loss function never returns an empty tensor,
`process_epoch` always returns (no uncaught exception). -/
theorem process_epoch_total {β P : Type} (lossFn : P → AnnotatedBatch β → LossOutcome)
    (stepFn : P → P) (dl : List β) (args : TrainArgs) (train : Bool)
    (hok : ∀ p ab t, lossFn p ab = LossOutcome.ok t → t ≠ []) (e : Nat) (s : TorchState P) :
    ∃ r, process_epoch e lossFn stepFn dl args train s = some r := by
  obtain ⟨r0, hr0⟩ := runBatches_total lossFn stepFn args e dl.length train hok
    dl.enum ⟨train, s.params⟩ []
  refine ⟨⟨r0.state, r0.epoch_losses, r0.okIdx, r0.events,
          r0.logLines ++ [LogLine.summary (modeLabel train) e (npMean r0.epoch_losses)],
          npMean r0.epoch_losses⟩, ?_⟩
  simp [process_epoch, hr0]

/-- If the checkpoint write succeeds below epoch `k` and fails at epoch
`k`, the remaining-epochs loop stops at epoch `k` with the error, a
history extended by one entry per epoch processed, and checkpoints
written only for the epochs before `k`. -/
theorem train_loop_aux_fail {β P : Type} (lossFn : P → AnnotatedBatch β → LossOutcome)
    (stepFn : P → P) (dl : List β) (args : TrainArgs)
    (saveFn : Checkpoint P → Except String Unit) (k : Nat) (msg : String)
    (hok : ∀ p ab t, lossFn p ab = LossOutcome.ok t → t ≠ [])
    (hsok : ∀ c : Checkpoint P, c.epoch_idx < k → saveFn c = Except.ok ())
    (hserr : ∀ c : Checkpoint P, c.epoch_idx = k → saveFn c = Except.error msg) :
    ∀ (j e : Nat) (history : List (Option ℚ)) (saved : List Nat) (s : TorchState P),
      e ≤ k → k < e + j →
      ∃ h', train_loop_aux lossFn stepFn dl args saveFn (List.range' e j) history saved s
            = RunResult.saveFailed msg (history ++ h') (saved ++ List.range' e (k - e)) ∧
          h'.length = k - e + 1 := by
  intro j
  induction j with
  | zero => intro e history saved s h1 h2; omega
  | succ j ih =>
    intro e history saved s h1 h2
    obtain ⟨r, hr⟩ := process_epoch_total lossFn stepFn dl args true hok e s
    by_cases hek : e = k
    · subst hek
      have hs := hserr ⟨args, e, r.state.params, history ++ [r.mean]⟩ rfl
      refine ⟨[r.mean], ?_, by simp⟩
      rw [List.range'_succ]
      simp [train_loop_aux, hr, hs]
    · have hek' : e < k := lt_of_le_of_ne h1 hek
      have hs := hsok ⟨args, e, r.state.params, history ++ [r.mean]⟩ hek'
      obtain ⟨h'', heq, hlen⟩ := ih (e + 1) (history ++ [r.mean]) (saved ++ [e]) r.state
        (by omega) (by omega)
      refine ⟨r.mean :: h'', ?_, by simp [hlen]; omega⟩
      rw [List.range'_succ]
      rw [train_loop_aux]
      simp only [hr, hs]
      rw [heq]
      have hke : k - e = (k - e - 1) + 1 := by omega
      have hke2 : k - (e + 1) = k - e - 1 := by omega
      rw [hke2] at *
      congr 1
      · simp
      · rw [hke, List.range'_succ]
        simp

/-- C1: for every batch on which the loss function signals the
NoGradient condition, the loop of `process_epoch` skips that batch
entirely: the accumulator, the log, the torch state (hence the
optimizer and the parameters) are passed through unchanged, no
`backward` and no `step` call is traced for it — only the `zero_grad`
of line 133 (train mode) and the loss call itself — and the loop
continues with the remaining batches instead of aborting the epoch. -/
theorem nograd_batch_skipped {β P : Type} (lossFn : P → AnnotatedBatch β → LossOutcome)
    (stepFn : P → P) (args : TrainArgs) (epoch_idx total bidx : Nat) (train : Bool) (b : β)
    (rest : List (Nat × β)) (s : TorchState P) (losses : List ℚ)
    (h : lossFn s.params (annotateBatch b train epoch_idx bidx args) = LossOutcome.noGrad) :
    runBatches lossFn stepFn args epoch_idx total train ((bidx, b) :: rest) s losses
      = (runBatches lossFn stepFn args epoch_idx total train rest s losses).map
          (fun r => ⟨r.state, r.epoch_losses, r.okIdx,
                     (if train then [Event.zeroGrad] else []) ++ Event.lossCall bidx :: r.events,
                     r.logLines⟩) := by
  simp [runBatches, h]

theorem nograd_batch_skipped_witness :
    ((fun (_ : Unit) (_ : AnnotatedBatch Unit) => LossOutcome.noGrad)
        (⟨true, ()⟩ : TorchState Unit).params (annotateBatch () true 1 0 ⟨1, "caffe", 250, false⟩)
      = LossOutcome.noGrad) ∧
    runBatches (fun (_ : Unit) (_ : AnnotatedBatch Unit) => LossOutcome.noGrad) (fun p => p)
        ⟨1, "caffe", 250, false⟩ 1 1 true [(0, ())] ⟨true, ()⟩ []
      = (runBatches (fun (_ : Unit) (_ : AnnotatedBatch Unit) => LossOutcome.noGrad) (fun p => p)
            ⟨1, "caffe", 250, false⟩ 1 1 true [] ⟨true, ()⟩ []).map
          (fun r => ⟨r.state, r.epoch_losses, r.okIdx,
                     Event.zeroGrad :: Event.lossCall 0 :: r.events, r.logLines⟩) :=
  ⟨rfl, nograd_batch_skipped _ _ _ _ _ _ _ _ _ _ _ rfl⟩

/-- C2: when every batch of the epoch signals NoGradient, the code does
not report the empty-epoch anomaly distinctly: it silently returns the
NaN produced by `np.mean` of the empty accumulator (modelled `none`)
and the only line it writes is the ordinary summary line carrying that
NaN — there is no sentinel and no warning.  Evaluated here on a
two-batch epoch where both batches raise `NoGradientError`. -/
theorem empty_epoch_silently_returns_nan :
    (process_epoch 1 (fun (_ : Unit) (_ : AnnotatedBatch Unit) => LossOutcome.noGrad)
        (fun p => p) [(), ()] ⟨1, "caffe", 250, false⟩ true ⟨false, ()⟩
      = some ⟨⟨true, ()⟩, [], [],
              [Event.zeroGrad, Event.lossCall 0, Event.zeroGrad, Event.lossCall 1],
              [LogLine.summary "train" 1 none], none⟩) ∧
    renderLogLine (LogLine.summary "train" 1 none) = "[train] epoch 1 - avg_loss: nan\n" := by
  constructor
  · simp [process_epoch, runBatches, npMean, modeLabel, List.enum, List.enumFrom]
  · rfl

/-- C3: when the loss function never signals NoGradient (and returns a
nonempty loss tensor, so scalar extraction succeeds) on a nonempty
batch list, `process_epoch` returns, the accumulator holds one value
per batch in iteration order, and the returned epoch mean is exactly
the arithmetic mean of those values — a well-defined rational, not the
NaN sentinel. -/
theorem epoch_mean_without_skips {β P : Type} (epoch_idx : Nat)
    (lossFn : P → AnnotatedBatch β → LossOutcome) (stepFn : P → P) (dl : List β)
    (args : TrainArgs) (train : Bool) (s : TorchState P)
    (hok : ∀ p ab, ∃ t, lossFn p ab = LossOutcome.ok t ∧ t ≠ [])
    (hne : dl ≠ []) :
    ∃ r : EpochOut P, process_epoch epoch_idx lossFn stepFn dl args train s = some r ∧
      r.epoch_losses.length = dl.length ∧
      r.mean = some (r.epoch_losses.sum / (r.epoch_losses.length : ℚ)) := by
  obtain ⟨r0, hr0, hlen⟩ := runBatches_no_skip lossFn stepFn args epoch_idx dl.length train hok
    dl.enum ⟨train, s.params⟩ []
  have hlen' : r0.epoch_losses.length = dl.length := by simpa using hlen
  have hne' : r0.epoch_losses.isEmpty = false := by
    cases hl : r0.epoch_losses with
    | nil => rw [hl] at hlen'; simp at hlen'; exact absurd (List.length_eq_zero.mp hlen'.symm) hne
    | cons a l => rfl
  refine ⟨⟨r0.state, r0.epoch_losses, r0.okIdx, r0.events,
          r0.logLines ++ [LogLine.summary (modeLabel train) epoch_idx (npMean r0.epoch_losses)],
          npMean r0.epoch_losses⟩, ?_, hlen', ?_⟩
  · simp [process_epoch, hr0]
  · simp [npMean, hne']

theorem epoch_mean_without_skips_witness :
    (∀ (p : Unit) (ab : AnnotatedBatch Unit), ∃ t,
        (fun (_ : Unit) (_ : AnnotatedBatch Unit) => LossOutcome.ok [(2 : ℚ)]) p ab
          = LossOutcome.ok t ∧ t ≠ []) ∧
    ([(), ()] : List Unit) ≠ [] ∧
    ∃ r : EpochOut Unit,
      process_epoch 1 (fun (_ : Unit) (_ : AnnotatedBatch Unit) => LossOutcome.ok [(2 : ℚ)])
          (fun p => p) [(), ()] ⟨1, "caffe", 250, false⟩ true ⟨false, ()⟩ = some r ∧
        r.epoch_losses.length = ([(), ()] : List Unit).length ∧
        r.mean = some (r.epoch_losses.sum / (r.epoch_losses.length : ℚ)) := by
  have hok : ∀ (p : Unit) (ab : AnnotatedBatch Unit), ∃ t,
      (fun (_ : Unit) (_ : AnnotatedBatch Unit) => LossOutcome.ok [(2 : ℚ)]) p ab
        = LossOutcome.ok t ∧ t ≠ [] := fun p ab => ⟨[2], rfl, by simp⟩
  exact ⟨hok, by simp,
    epoch_mean_without_skips 1 _ _ [(), ()] ⟨1, "caffe", 250, false⟩ true ⟨false, ()⟩ hok (by simp)⟩

/-- C4 (counterexample): a single-batch epoch whose batch 0 raises
`NoGradientError`, with log interval 4.  Batch index 0 is a multiple of
the interval, yet no interval log line is emitted at all (the list of
interval-line batch indices is empty), contradicting the claim that
interval lines are emitted exactly at the multiples of the interval,
always including batch 0. -/
theorem interval_log_line_missing_at_batch_zero :
    (process_epoch 1 (fun (_ : Unit) (_ : AnnotatedBatch Unit) => LossOutcome.noGrad) (fun p => p)
        [()] ⟨1, "caffe", 4, false⟩ true ⟨false, ()⟩).map
      (fun r => r.logLines.filterMap intervalIdx) = some [] ∧ 0 % 4 = 0 := by
  constructor
  · simp [process_epoch, runBatches, intervalIdx, npMean, modeLabel, List.enum, List.enumFrom]
  · rfl

/-- C4 (amended): in every completed epoch, interval log lines are
emitted exactly at the batch indices that are multiples of the
configured log interval among the batches whose loss computation
succeeded — in particular batch 0 whenever batch 0 succeeds — plus
exactly one summary line, placed at the end with the epoch mean; and
the rendered lines follow the literal formats
`[<mode>] epoch <int> - batch <int> / <total> - avg_loss: <float>` and
`[<mode>] epoch <int> - avg_loss: <float>`. -/
theorem interval_log_lines_characterised {β P : Type} (epoch_idx : Nat)
    (lossFn : P → AnnotatedBatch β → LossOutcome) (stepFn : P → P) (dl : List β)
    (args : TrainArgs) (train : Bool) (s : TorchState P) (r : EpochOut P)
    (hr : process_epoch epoch_idx lossFn stepFn dl args train s = some r) :
    r.logLines.filterMap intervalIdx = r.okIdx.filter (fun i => i % args.log_interval == 0) ∧
      r.logLines.countP isSummaryLine = 1 ∧
      r.logLines.getLast? = some (LogLine.summary (modeLabel train) epoch_idx (npMean r.epoch_losses)) ∧
      (0 ∈ r.okIdx → 0 ∈ r.logLines.filterMap intervalIdx) ∧
      (∀ m e b t a, renderLogLine (LogLine.interval m e b t a)
        = "[" ++ m ++ "] epoch " ++ toString e ++ " - batch " ++ toString b ++ " / "
            ++ toString t ++ " - avg_loss: " ++ renderNpFloat a ++ "\n") ∧
      (∀ m e a, renderLogLine (LogLine.summary m e a)
        = "[" ++ m ++ "] epoch " ++ toString e ++ " - avg_loss: " ++ renderNpFloat a ++ "\n") := by
  unfold process_epoch at hr
  simp at hr
  obtain ⟨r0, hr0, heq⟩ := hr
  obtain ⟨hmap, hsum⟩ := runBatches_log lossFn stepFn args epoch_idx dl.length train
    dl.enum ⟨train, s.params⟩ [] r0 hr0
  subst heq
  have hcount : r0.logLines.countP isSummaryLine = 0 := by
    rw [List.countP_eq_zero]
    intro a ha
    simp [hsum a ha]
  refine ⟨?_, ?_, ?_, ?_, fun m e b t a => rfl, fun m e a => rfl⟩
  · simp [List.filterMap_append, intervalIdx, hmap]
  · simp [List.countP_append, hcount, isSummaryLine]
  · simp [List.getLast?_concat]
  · intro h0
    simp [List.filterMap_append, intervalIdx, hmap, List.mem_filter]
    exact h0

theorem interval_log_lines_characterised_witness :
    (process_epoch 1 (fun (_ : Unit) (_ : AnnotatedBatch Unit) => LossOutcome.ok [(2 : ℚ)])
        (fun p => p) [()] ⟨1, "caffe", 250, false⟩ true ⟨false, ()⟩
      = some ⟨⟨true, ()⟩, [2], [0], [Event.zeroGrad, Event.lossCall 0, Event.backward, Event.step],
              [LogLine.interval "train" 1 0 1 (some 2), LogLine.summary "train" 1 (some 2)],
              some 2⟩) ∧
    ([LogLine.interval "train" 1 0 1 (some 2), LogLine.summary "train" 1 (some 2)].filterMap intervalIdx
        = [0].filter fun i => i % (250 : Nat) == 0) ∧
    [LogLine.interval "train" 1 0 1 (some 2), LogLine.summary "train" 1 (some 2)].countP isSummaryLine
      = 1 := by
  have h : process_epoch 1 (fun (_ : Unit) (_ : AnnotatedBatch Unit) => LossOutcome.ok [(2 : ℚ)])
      (fun p => p) [()] ⟨1, "caffe", 250, false⟩ true ⟨false, ()⟩
      = some ⟨⟨true, ()⟩, [2], [0], [Event.zeroGrad, Event.lossCall 0, Event.backward, Event.step],
              [LogLine.interval "train" 1 0 1 (some 2), LogLine.summary "train" 1 (some 2)],
              some 2⟩ := by
    simp [process_epoch, runBatches, extractLoss, npMean, modeLabel, List.enum, List.enumFrom]
  have hc := interval_log_lines_characterised 1 _ _ [()] ⟨1, "caffe", 250, false⟩ true ⟨false, ()⟩ _ h
  exact ⟨h, hc.1, hc.2.1⟩

/-- C5: in Eval mode (`train = false`), a completed `process_epoch`
call traces no `optimizer.zero_grad()` and no `optimizer.step()` call,
and the model parameters after the epoch are exactly the parameters
before it. -/
theorem eval_mode_no_optimizer_calls {β P : Type} (epoch_idx : Nat)
    (lossFn : P → AnnotatedBatch β → LossOutcome) (stepFn : P → P) (dl : List β)
    (args : TrainArgs) (s : TorchState P) (r : EpochOut P)
    (hr : process_epoch epoch_idx lossFn stepFn dl args false s = some r) :
    r.state.params = s.params ∧ Event.zeroGrad ∉ r.events ∧ Event.step ∉ r.events := by
  unfold process_epoch at hr
  simp at hr
  obtain ⟨r0, hr0, heq⟩ := hr
  obtain ⟨hst, hev⟩ := runBatches_eval lossFn stepFn args epoch_idx dl.length
    dl.enum ⟨false, s.params⟩ [] r0 hr0
  subst heq
  refine ⟨by rw [hst], ?_, ?_⟩
  · intro hmem
    obtain ⟨i, hi⟩ := hev _ hmem
    exact Event.noConfusion hi
  · intro hmem
    obtain ⟨i, hi⟩ := hev _ hmem
    exact Event.noConfusion hi

theorem eval_mode_no_optimizer_calls_witness :
    (process_epoch 1 (fun (_ : Unit) (_ : AnnotatedBatch Unit) => LossOutcome.ok [(2 : ℚ)])
        (fun p => p) [()] ⟨1, "caffe", 250, false⟩ false ⟨true, ()⟩
      = some ⟨⟨false, ()⟩, [2], [0], [Event.lossCall 0],
              [LogLine.interval "valid" 1 0 1 (some 2), LogLine.summary "valid" 1 (some 2)],
              some 2⟩) ∧
    ((⟨⟨false, ()⟩, [2], [0], [Event.lossCall 0],
       [LogLine.interval "valid" 1 0 1 (some 2), LogLine.summary "valid" 1 (some 2)],
       some 2⟩ : EpochOut Unit).state.params = (⟨true, ()⟩ : TorchState Unit).params ∧
     Event.zeroGrad ∉ (⟨⟨false, ()⟩, [2], [0], [Event.lossCall 0],
       [LogLine.interval "valid" 1 0 1 (some 2), LogLine.summary "valid" 1 (some 2)],
       some 2⟩ : EpochOut Unit).events ∧
     Event.step ∉ (⟨⟨false, ()⟩, [2], [0], [Event.lossCall 0],
       [LogLine.interval "valid" 1 0 1 (some 2), LogLine.summary "valid" 1 (some 2)],
       some 2⟩ : EpochOut Unit).events) := by
  have h : process_epoch 1 (fun (_ : Unit) (_ : AnnotatedBatch Unit) => LossOutcome.ok [(2 : ℚ)])
      (fun p => p) [()] ⟨1, "caffe", 250, false⟩ false ⟨true, ()⟩
      = some ⟨⟨false, ()⟩, [2], [0], [Event.lossCall 0],
              [LogLine.interval "valid" 1 0 1 (some 2), LogLine.summary "valid" 1 (some 2)],
              some 2⟩ := by
    simp [process_epoch, runBatches, extractLoss, npMean, modeLabel, List.enum, List.enumFrom]
  exact ⟨h, eval_mode_no_optimizer_calls _ _ _ _ _ _ _ h⟩

/-- C6: in Train mode, a batch whose loss computation succeeds
contributes to the call trace exactly the sequence
`zero_grad, loss_function, backward, step`: the gradients are cleared
exactly once, before the loss computation, and the optimizer is
stepped exactly once, after the backward propagation, for that
batch. -/
theorem train_batch_clear_once_then_step_once {β P : Type}
    (lossFn : P → AnnotatedBatch β → LossOutcome) (stepFn : P → P) (args : TrainArgs)
    (epoch_idx total bidx : Nat) (b : β) (t : List ℚ) (q : ℚ) (rest : List (Nat × β))
    (s : TorchState P) (losses : List ℚ)
    (h : lossFn s.params (annotateBatch b true epoch_idx bidx args) = LossOutcome.ok t)
    (hq : extractLoss t = some q) :
    runBatches lossFn stepFn args epoch_idx total true ((bidx, b) :: rest) s losses
      = (runBatches lossFn stepFn args epoch_idx total true rest
            ⟨s.gradEnabled, stepFn s.params⟩ (losses ++ [q])).map
          (fun r => ⟨r.state, r.epoch_losses, bidx :: r.okIdx,
                     Event.zeroGrad :: Event.lossCall bidx :: Event.backward :: Event.step :: r.events,
                     (if bidx % args.log_interval == 0 then
                        [LogLine.interval (modeLabel true) epoch_idx bidx total (npMean (losses ++ [q]))]
                      else []) ++ r.logLines⟩) := by
  simp [runBatches, h, hq]

theorem train_batch_clear_once_then_step_once_witness :
    ((fun (_ : Unit) (_ : AnnotatedBatch Unit) => LossOutcome.ok [(5 : ℚ)])
        (⟨true, ()⟩ : TorchState Unit).params (annotateBatch () true 1 0 ⟨1, "caffe", 250, false⟩)
      = LossOutcome.ok [(5 : ℚ)]) ∧
    extractLoss [(5 : ℚ)] = some 5 ∧
    runBatches (fun (_ : Unit) (_ : AnnotatedBatch Unit) => LossOutcome.ok [(5 : ℚ)]) (fun p => p)
        ⟨1, "caffe", 250, false⟩ 1 1 true [(0, ())] ⟨true, ()⟩ []
      = (runBatches (fun (_ : Unit) (_ : AnnotatedBatch Unit) => LossOutcome.ok [(5 : ℚ)]) (fun p => p)
            ⟨1, "caffe", 250, false⟩ 1 1 true [] ⟨true, ()⟩ [(5 : ℚ)]).map
          (fun r => ⟨r.state, r.epoch_losses, 0 :: r.okIdx,
                     Event.zeroGrad :: Event.lossCall 0 :: Event.backward :: Event.step :: r.events,
                     [LogLine.interval (modeLabel true) 1 0 1 (npMean [(5 : ℚ)])] ++ r.logLines⟩) :=
  ⟨rfl, rfl, train_batch_clear_once_then_step_once _ _ _ _ _ _ _ _ _ _ _ _ rfl rfl⟩

/-- C7: the outer loop runs the epoch indices `1 .. n` in order, in
Train mode, appending each epoch mean to the loss history before
writing that checkpoint; so when the checkpoint write succeeds below
epoch `k` and fails at epoch `k` (`1 ≤ k ≤ n`), the run terminates
with the propagated save error, the loss history holds exactly `k`
entries, and checkpoints exist exactly for epochs `1 .. k-1` — none
for epoch `k` nor for epochs `k+1 .. n`. -/
theorem train_loop_checkpoint_failure {β P : Type} (lossFn : P → AnnotatedBatch β → LossOutcome)
    (stepFn : P → P) (dl : List β) (args : TrainArgs)
    (saveFn : Checkpoint P → Except String Unit) (n k : Nat) (msg : String) (s : TorchState P)
    (hok : ∀ p ab t, lossFn p ab = LossOutcome.ok t → t ≠ [])
    (hk1 : 1 ≤ k) (hkn : k ≤ n)
    (hsok : ∀ c : Checkpoint P, c.epoch_idx < k → saveFn c = Except.ok ())
    (hserr : ∀ c : Checkpoint P, c.epoch_idx = k → saveFn c = Except.error msg) :
    ∃ h', train_loop n lossFn stepFn dl args saveFn s
          = RunResult.saveFailed msg h' (List.range' 1 (k - 1)) ∧ h'.length = k := by
  obtain ⟨h', heq, hlen⟩ := train_loop_aux_fail lossFn stepFn dl args saveFn k msg hok hsok hserr
    n 1 [] [] s hk1 (by omega)
  refine ⟨h', ?_, by omega⟩
  rw [train_loop, heq]
  simp

theorem train_loop_checkpoint_failure_witness :
    (∀ (p : Unit) (ab : AnnotatedBatch Unit) (t : List ℚ),
        (fun (_ : Unit) (_ : AnnotatedBatch Unit) => LossOutcome.ok [(1 : ℚ)]) p ab
          = LossOutcome.ok t → t ≠ []) ∧
    (1 : Nat) ≤ 3 ∧ (3 : Nat) ≤ 5 ∧
    (∀ c : Checkpoint Unit, c.epoch_idx < 3 →
        (fun c : Checkpoint Unit =>
          if c.epoch_idx = 3 then Except.error "disk full" else Except.ok ()) c = Except.ok ()) ∧
    (∀ c : Checkpoint Unit, c.epoch_idx = 3 →
        (fun c : Checkpoint Unit =>
          if c.epoch_idx = 3 then Except.error "disk full" else Except.ok ()) c
          = Except.error "disk full") ∧
    ∃ h', train_loop 5 (fun (_ : Unit) (_ : AnnotatedBatch Unit) => LossOutcome.ok [(1 : ℚ)])
            (fun p => p) [()] ⟨1, "caffe", 250, false⟩
            (fun c => if c.epoch_idx = 3 then Except.error "disk full" else Except.ok ()) ⟨true, ()⟩
          = RunResult.saveFailed "disk full" h' (List.range' 1 2) ∧ h'.length = 3 := by
  have hok : ∀ (p : Unit) (ab : AnnotatedBatch Unit) (t : List ℚ),
      (fun (_ : Unit) (_ : AnnotatedBatch Unit) => LossOutcome.ok [(1 : ℚ)]) p ab
        = LossOutcome.ok t → t ≠ [] := by
    intro p ab t h
    cases h
    simp
  have hsok : ∀ c : Checkpoint Unit, c.epoch_idx < 3 →
      (fun c : Checkpoint Unit =>
        if c.epoch_idx = 3 then Except.error "disk full" else Except.ok ()) c = Except.ok () := by
    intro c hc
    simp only
    rw [if_neg (by omega)]
  have hserr : ∀ c : Checkpoint Unit, c.epoch_idx = 3 →
      (fun c : Checkpoint Unit =>
        if c.epoch_idx = 3 then Except.error "disk full" else Except.ok ()) c
        = Except.error "disk full" := by
    intro c hc
    simp [hc]
  exact ⟨hok, by norm_num, by norm_num, hsok, hserr,
    train_loop_checkpoint_failure _ _ _ _ _ 5 3 "disk full" _ hok (by norm_num) (by norm_num)
      hsok hserr⟩

/-- C8: concrete scenario — 10 batches, log interval 4, batches 2 and
7 raise `NoGradientError`, the other batches yield losses 1..8 in
order.  The accumulator ends as `[1, 2, 3, 4, 5, 6, 7, 8]`, the
returned epoch mean is 4.5, the interval log lines are emitted exactly
at batch indices 0, 4 and 8, and exactly one summary line is
written. -/
theorem scenario_ten_batches_interval_four :
    (process_epoch 1 c8LossFn (fun p => p) (List.replicate 10 ()) ⟨1, "caffe", 4, false⟩ true
        ⟨false, ()⟩).map
      (fun r => (r.epoch_losses, r.mean, r.logLines.filterMap intervalIdx,
                 r.logLines.countP isSummaryLine))
      = some ([1, 2, 3, 4, 5, 6, 7, 8], some (9 / 2), [0, 4, 8], 1) := by
  simp [process_epoch, runBatches, c8LossFn, c8Val, annotateBatch, extractLoss, npMean,
    modeLabel, intervalIdx, isSummaryLine, List.enum, List.enumFrom, List.replicate]
  norm_num

/-- C9: `process_epoch` sets the process-global autograd toggle to its
`train` argument at epoch start (line 128) and never restores the
previous value: whatever the toggle was before the call, after a
completed Eval-mode call it is left disabled for all subsequent
code. -/
theorem eval_epoch_disables_grad_globally {β P : Type} (epoch_idx : Nat)
    (lossFn : P → AnnotatedBatch β → LossOutcome) (stepFn : P → P) (dl : List β)
    (args : TrainArgs) (s : TorchState P) (r : EpochOut P)
    (hr : process_epoch epoch_idx lossFn stepFn dl args false s = some r) :
    r.state.gradEnabled = false := by
  unfold process_epoch at hr
  simp at hr
  obtain ⟨r0, hr0, heq⟩ := hr
  have hg := runBatches_gradEnabled lossFn stepFn args epoch_idx dl.length false
    dl.enum ⟨false, s.params⟩ [] r0 hr0
  subst heq
  simpa using hg

theorem eval_epoch_disables_grad_globally_witness :
    (process_epoch 1 (fun (_ : Unit) (_ : AnnotatedBatch Unit) => LossOutcome.ok [(2 : ℚ)])
        (fun p => p) [()] ⟨1, "caffe", 250, false⟩ false ⟨true, ()⟩
      = some ⟨⟨false, ()⟩, [2], [0], [Event.lossCall 0],
              [LogLine.interval "valid" 1 0 1 (some 2), LogLine.summary "valid" 1 (some 2)],
              some 2⟩) ∧
    (⟨⟨false, ()⟩, [2], [0], [Event.lossCall 0],
      [LogLine.interval "valid" 1 0 1 (some 2), LogLine.summary "valid" 1 (some 2)],
      some 2⟩ : EpochOut Unit).state.gradEnabled = false := by
  have h : process_epoch 1 (fun (_ : Unit) (_ : AnnotatedBatch Unit) => LossOutcome.ok [(2 : ℚ)])
      (fun p => p) [()] ⟨1, "caffe", 250, false⟩ false ⟨true, ()⟩
      = some ⟨⟨false, ()⟩, [2], [0], [Event.lossCall 0],
              [LogLine.interval "valid" 1 0 1 (some 2), LogLine.summary "valid" 1 (some 2)],
              some 2⟩ := by
    simp [process_epoch, runBatches, extractLoss, npMean, modeLabel, List.enum, List.enumFrom]
  exact ⟨h, eval_epoch_disables_grad_globally _ _ _ _ _ _ _ h⟩

/-- C10: the scalar extraction of line 148 succeeds exactly when the
loss tensor has at least one element along its first dimension; on a
zero-dimensional or empty tensor it fails, and since the resulting
`IndexError` is not caught (only `NoGradientError` is), a loss
function returning such a tensor on the first batch makes the whole
`process_epoch` call abort with the exception. -/
theorem loss_extraction_needs_nonempty_first_dim {β P : Type} (epoch_idx : Nat)
    (lossFn : P → AnnotatedBatch β → LossOutcome) (stepFn : P → P) (b : β) (rest : List β)
    (args : TrainArgs) (train : Bool) (s : TorchState P)
    (h : lossFn s.params (annotateBatch b train epoch_idx 0 args) = LossOutcome.ok []) :
    (∀ t : List ℚ, (extractLoss t).isSome ↔ t ≠ []) ∧
      process_epoch epoch_idx lossFn stepFn (b :: rest) args train s = none := by
  constructor
  · intro t; cases t <;> simp [extractLoss]
  · simp [process_epoch, runBatches, List.enum, List.enumFrom, h, extractLoss]

theorem loss_extraction_needs_nonempty_first_dim_witness :
    ((fun (_ : Unit) (_ : AnnotatedBatch Unit) => LossOutcome.ok ([] : List ℚ))
        (⟨true, ()⟩ : TorchState Unit).params (annotateBatch () true 1 0 ⟨1, "caffe", 250, false⟩)
      = LossOutcome.ok ([] : List ℚ)) ∧
    ((∀ t : List ℚ, (extractLoss t).isSome ↔ t ≠ []) ∧
      process_epoch 1 (fun (_ : Unit) (_ : AnnotatedBatch Unit) => LossOutcome.ok ([] : List ℚ))
        (fun p => p) [()] ⟨1, "caffe", 250, false⟩ true ⟨true, ()⟩ = none) :=
  ⟨rfl, loss_extraction_needs_nonempty_first_dim _ _ _ _ _ _ _ _ rfl⟩

end RoRD
